import Mathlib

/-!
# go-grpc-blog: the blog service, the request multiplexer and the shutdown sequence

A shallow embedding of `server.go` and of the shutdown tail of `main.go`.

* Go strings that travel in protobuf messages are Lean `String`s (proto3 strings are valid
  UTF-8); Go's `len(s)` is `String.utf8ByteSize`.
* `primitive.ObjectID` is a 12-byte array; `ObjectIDFromHex` and `ObjectID.Hex` follow the
  driver's code (a length test, then `encoding/hex`).
* The MongoDB collection is an explicit state: the documents in the store's iteration order,
  together with the list of driver calls issued so far.  Driver failures and the identifier the
  driver generates on insert are inputs (`Env`), so every handler is a total function of the
  request, the store and the environment.
* A handler returns `Except Status Response` together with the store it leaves behind.
* The MongoDB driver, `encoding/hex`, `grpcweb` and `net/http` are libraries outside the
  repository.  The definitions named after their functions state the behaviour the handlers
  rely on; a stored document is described by what the handlers can observe of it, its `_id`
  and the outcome of decoding it into a `BlogItem`.
* The last part of the file states the claims `C1` to `C10`, each with a concrete instance
  when it has hypotheses.
-/

namespace BlogService

/-! ## Identifiers -/

/-- The type `primitive.ObjectID`, that is `[12]byte`. -/
structure ObjectID where
  bytes : List (Fin 256)
  size : bytes.length = 12
  deriving DecidableEq

/-- The zero value of `ObjectID` (`primitive.NilObjectID`). -/
def NilObjectID : ObjectID := ⟨List.replicate 12 0, by simp⟩

/-- The table `hextable` of `encoding/hex`. -/
def hextable : List Char := "0123456789abcdef".data

/-- The digit `hextable[v]`. -/
def hexDigit (v : Nat) : Char := hextable.getD v '0'

/-- The function `fromHexChar` of `encoding/hex`: the value of a hexadecimal digit, in either
case; `none` for any other character. -/
def fromHexChar (c : Char) : Option (Fin 16) :=
  if '0' ≤ c ∧ c ≤ '9' then some (Fin.ofNat (c.toNat - '0'.toNat))
  else if 'a' ≤ c ∧ c ≤ 'f' then some (Fin.ofNat (c.toNat - 'a'.toNat + 10))
  else if 'A' ≤ c ∧ c ≤ 'F' then some (Fin.ofNat (c.toNat - 'A'.toNat + 10))
  else none

/-- The byte `(a << 4) | b` built from two digit values. -/
def mkByte (a b : Fin 16) : Fin 256 := ⟨a.val * 16 + b.val, by omega⟩

/-- The function `hex.DecodeString`: two digits per byte; an odd length or a character that is
not a hexadecimal digit is an error (`none`). -/
def hexDecode : List Char → Option (List (Fin 256))
  | [] => some []
  | [_] => none
  | p :: q :: rest =>
    match fromHexChar p, fromHexChar q with
    | some a, some b => (hexDecode rest).map (fun bs => mkByte a b :: bs)
    | _, _ => none

/-- The function `hex.EncodeToString`: two lower-case digits per byte. -/
def hexEncode : List (Fin 256) → List Char
  | [] => []
  | b :: bs => hexDigit (b.val / 16) :: hexDigit (b.val % 16) :: hexEncode bs

/-- The statement `var oid [12]byte; copy(oid[:], b)`. -/
def copy12 (b : List (Fin 256)) : ObjectID :=
  ⟨(b ++ List.replicate 12 0).take 12, by simp⟩

/-- The function `primitive.ObjectIDFromHex`: `len(s) != 24` is an error, then the string is
decoded with `hex.DecodeString`.  `none` stands for a non-nil `err`. -/
def ObjectIDFromHex (s : String) : Option ObjectID :=
  if s.utf8ByteSize ≠ 24 then none
  else (hexDecode s.data).map copy12

/-- The method `ObjectID.Hex`. -/
def ObjectID.Hex (id : ObjectID) : String := String.mk (hexEncode id.bytes)

/-! ## Messages -/

/-- The message `protos.Blog`. -/
structure Blog where
  Id : String
  AuthorId : String
  Title : String
  Content : String
  deriving DecidableEq

/-- The getter `GetId` on a possibly nil `*protos.Blog`. -/
def GetId : Option Blog → String
  | some b => b.Id
  | none => ""

/-- The getter `GetAuthorId` on a possibly nil `*protos.Blog`. -/
def GetAuthorId : Option Blog → String
  | some b => b.AuthorId
  | none => ""

/-- The getter `GetTitle` on a possibly nil `*protos.Blog`. -/
def GetTitle : Option Blog → String
  | some b => b.Title
  | none => ""

/-- The getter `GetContent` on a possibly nil `*protos.Blog`. -/
def GetContent : Option Blog → String
  | some b => b.Content
  | none => ""

structure CreateBlogRequest where
  Blog : Option Blog
  deriving DecidableEq

structure CreateBlogResponse where
  Blog : Option Blog
  deriving DecidableEq

structure ReadBlogRequest where
  BlogId : String
  deriving DecidableEq

structure ReadBlogResponse where
  Blog : Option Blog
  deriving DecidableEq

structure UpdateBlogRequest where
  Blog : Option Blog
  deriving DecidableEq

structure UpdateBlogResponse where
  Blog : Option Blog
  deriving DecidableEq

structure DeleteBlogRequest where
  BlogId : String
  deriving DecidableEq

structure DeleteBlogResponse where
  BlogId : String
  deriving DecidableEq

structure ListBlogRequest where
  deriving DecidableEq

structure ListBlogResponse where
  Blog : Option Blog
  deriving DecidableEq

/-- The status codes of `google.golang.org/grpc/codes`. -/
inductive Code where
  | OK | Canceled | Unknown | InvalidArgument | DeadlineExceeded | NotFound | AlreadyExists
  | PermissionDenied | ResourceExhausted | FailedPrecondition | Aborted | OutOfRange
  | Unimplemented | Internal | Unavailable | DataLoss | Unauthenticated
  deriving DecidableEq

/-- The error built by `status.Errorf(code, ...)`.  `message` keeps the fixed text of the format
string; the rendering of the underlying error (`%v`) is left out. -/
structure Status where
  code : Code
  message : String
  deriving DecidableEq

deriving instance DecidableEq for Except

/-! ## The store -/

/-- The struct `BlogItem` (`_id,omitempty`, `author_id`, `content`, `title`). -/
structure BlogItem where
  ID : ObjectID
  AuthorID : String
  Content : String
  Title : String
  deriving DecidableEq

/-- The value `BlogItem{}`. -/
def BlogItem.zero : BlogItem := ⟨NilObjectID, "", "", ""⟩

/-- A stored document, as far as this program can observe it.
`blog item` is a document with an ObjectID `_id` that decodes into `item`; marshalling a
`BlogItem` yields one.  `foreign key leftover` is any other document: `key` is its `_id` when
that is an ObjectID, decoding it fails, and `leftover` is what the failed decode leaves in a
fresh target. -/
inductive Document where
  | blog (item : BlogItem)
  | foreign (key : Option ObjectID) (leftover : BlogItem)
  deriving DecidableEq

/-- The ObjectID under `_id`, the value a filter `bson.D{{"_id", oid}}` is compared with. -/
def Document.key : Document → Option ObjectID
  | .blog item => some item.ID
  | .foreign key _ => key

/-- Does the filter `bson.D{{"_id", oid}}` select this document? -/
def Document.hasKey (oid : ObjectID) (d : Document) : Bool :=
  decide (d.key = some oid)

/-- Errors returned by the driver: the sentinel `mongo.ErrNoDocuments`, or anything else. -/
inductive DriverError where
  | ErrNoDocuments
  | failure (text : String)
  deriving DecidableEq

/-- A call on `Collection` that reached the driver. -/
inductive Call where
  | InsertOne
  | FindOne (oid : ObjectID)
  | ReplaceOne (oid : ObjectID)
  | DeleteOne (oid : ObjectID)
  | Find
  deriving DecidableEq

/-- The state behind the global `Collection`: the stored documents in iteration order and the
driver calls issued so far. -/
structure Collection where
  docs : List Document
  calls : List Call
  deriving DecidableEq

/-- What the program does not control in one handler run: the ObjectID the driver generates for
a document inserted without `_id`, a failure of each driver call (`none`: the call goes
through), and for the cursor of `Find` a failure raised by `Next` after `n` documents. -/
structure Env where
  newObjectID : ObjectID
  insertOne : Option DriverError
  findOne : Option DriverError
  replaceOne : Option DriverError
  deleteOne : Option DriverError
  find : Option DriverError
  cursor : Option (Nat × DriverError)

/-- The field `InsertedID interface{}` of `mongo.InsertOneResult`. -/
inductive InsertedID where
  | objectID (oid : ObjectID)
  | other
  deriving DecidableEq

structure InsertOneResult where
  InsertedID : InsertedID
  deriving DecidableEq

/-- The store with `call` entered in the log of issued calls. -/
def Collection.issue (c : Collection) (call : Call) : Collection :=
  { c with calls := c.calls ++ [call] }

/-- The method `Collection.InsertOne`.  A zero `ID` is omitted (`omitempty`) and the driver
generates `env.newObjectID`; a key already present is a duplicate-key error; otherwise the
document is added. -/
def Collection.InsertOne (c : Collection) (env : Env) (data : BlogItem) :
    Except DriverError InsertOneResult × Collection :=
  let c1 := c.issue Call.InsertOne
  match env.insertOne with
  | some e => (.error e, c1)
  | none =>
    let id := if data.ID = NilObjectID then env.newObjectID else data.ID
    if c.docs.any (Document.hasKey id) then
      (.error (.failure "E11000 duplicate key error"), c1)
    else
      (.ok ⟨.objectID id⟩, { c1 with docs := c1.docs ++ [Document.blog { data with ID := id }] })

/-- The type `mongo.SingleResult`: an error of the find, or the first selected document if
there is one. -/
structure SingleResult where
  err : Option DriverError
  cur : Option Document
  deriving DecidableEq

/-- The method `Collection.FindOne` with the filter `bson.D{{"_id", oid}}`. -/
def Collection.FindOne (c : Collection) (env : Env) (oid : ObjectID) :
    SingleResult × Collection :=
  let c1 := c.issue (Call.FindOne oid)
  match env.findOne with
  | some e => (⟨some e, none⟩, c1)
  | none => (⟨none, c.docs.find? (Document.hasKey oid)⟩, c1)

/-- The method `SingleResult.Decode` called with a pointer to `data`: the returned error and
the contents of `data` afterwards.  An error of the find comes first, then
`ErrNoDocuments` when nothing was selected, then the decoding itself. -/
def SingleResult.Decode (sr : SingleResult) (data : BlogItem) : Option DriverError × BlogItem :=
  match sr.err with
  | some e => (some e, data)
  | none =>
    match sr.cur with
    | none => (some .ErrNoDocuments, data)
    | some (.blog item) => (none, item)
    | some (.foreign _ leftover) => (some (.failure "cannot decode document"), leftover)

/-- The method `SingleResult.Decode` called with a `BlogItem` value instead of a pointer, as
`UpdateBlog` and `DeleteBlog` do: same order of checks, but the decoding step rejects a target
that is neither a pointer nor a map, and `data` is never written. -/
def SingleResult.DecodeValue (sr : SingleResult) : Option DriverError :=
  match sr.err with
  | some e => some e
  | none =>
    match sr.cur with
    | none => some .ErrNoDocuments
    | some _ => some (.failure "argument to Decode must be a pointer or a map")

/-- The first selected document replaced by `new`. -/
def replaceFirst (oid : ObjectID) (new : Document) : List Document → List Document
  | [] => []
  | d :: ds => if d.hasKey oid then new :: ds else d :: replaceFirst oid new ds

/-- The method `Collection.ReplaceOne` with the filter `bson.D{{"_id", oid}}`: the first
selected document becomes the marshalled `data` and keeps its `_id`; a replacement carrying a
different `_id` is refused by the server; when nothing is selected nothing changes and no error
is returned.  The result is the matched count. -/
def Collection.ReplaceOne (c : Collection) (env : Env) (oid : ObjectID) (data : BlogItem) :
    Except DriverError Nat × Collection :=
  let c1 := c.issue (Call.ReplaceOne oid)
  match env.replaceOne with
  | some e => (.error e, c1)
  | none =>
    if c.docs.any (Document.hasKey oid) then
      if data.ID ≠ NilObjectID ∧ data.ID ≠ oid then
        (.error (.failure "the (immutable) field _id was found to have been altered"), c1)
      else
        (.ok 1, { c1 with docs := replaceFirst oid (Document.blog { data with ID := oid }) c1.docs })
    else (.ok 0, c1)

/-- The method `Collection.DeleteOne` with the filter `bson.D{{"_id", oid}}`: the first
selected document is removed; when nothing is selected nothing changes and no error is
returned.  The result is the deleted count. -/
def Collection.DeleteOne (c : Collection) (env : Env) (oid : ObjectID) :
    Except DriverError Nat × Collection :=
  let c1 := c.issue (Call.DeleteOne oid)
  match env.deleteOne with
  | some e => (.error e, c1)
  | none =>
    if c.docs.any (Document.hasKey oid) then
      (.ok 1, { c1 with docs := c1.docs.eraseP (Document.hasKey oid) })
    else (.ok 0, c1)

/-- The type `mongo.Cursor`: the documents `Next` will still deliver, and the error `Err`
reports once `Next` has returned false. -/
structure Cursor where
  batch : List Document
  err : Option DriverError
  deriving DecidableEq

/-- The method `Collection.Find` with the empty filter `bson.D{}`. -/
def Collection.Find (c : Collection) (env : Env) : Except DriverError Cursor × Collection :=
  let c1 := c.issue Call.Find
  match env.find with
  | some e => (.error e, c1)
  | none =>
    match env.cursor with
    | none => (.ok ⟨c.docs, none⟩, c1)
    | some (n, e) => (.ok ⟨c.docs.take n, some e⟩, c1)

/-- The method `Cursor.Decode` called with a pointer to a fresh `BlogItem`. -/
def Document.decode : Document → Except DriverError BlogItem
  | .blog item => .ok item
  | .foreign _ _ => .error (.failure "cannot decode document")

/-! ## The blog service (`server.go`) -/

/-- The method `server.CreateBlog`. -/
def CreateBlog (env : Env) (c : Collection) (req : CreateBlogRequest) :
    Except Status CreateBlogResponse × Collection :=
  let blog := req.Blog
  let data : BlogItem :=
    { ID := NilObjectID, AuthorID := GetAuthorId blog, Content := GetContent blog,
      Title := GetTitle blog }
  match c.InsertOne env data with
  | (.error _, c1) => (.error ⟨.Internal, "Internal error: "⟩, c1)
  | (.ok res, c1) =>
    match res.InsertedID with
    | .other => (.error ⟨.Internal, "Cannot convert to OID: "⟩, c1)
    | .objectID oid =>
      (.ok ⟨some
        { Id := oid.Hex, AuthorId := GetAuthorId blog, Content := GetContent blog,
          Title := GetTitle blog }⟩, c1)

/-- The method `server.ReadBlog`. -/
def ReadBlog (env : Env) (c : Collection) (req : ReadBlogRequest) :
    Except Status ReadBlogResponse × Collection :=
  let blogId := req.BlogId
  match ObjectIDFromHex blogId with
  | none => (.error ⟨.InvalidArgument, "Cannot parse id: "⟩, c)
  | some oid =>
    let (sr, c1) := c.FindOne env oid
    let (err, data) := sr.Decode BlogItem.zero
    if err = some .ErrNoDocuments then
      (.error ⟨.NotFound, "Blog with id not found: "⟩, c1)
    else
      (.ok ⟨some
        { Id := data.ID.Hex, AuthorId := data.AuthorID, Content := data.Content,
          Title := data.Title }⟩, c1)

/-- The method `server.UpdateBlog`. -/
def UpdateBlog (env : Env) (c : Collection) (req : UpdateBlogRequest) :
    Except Status UpdateBlogResponse × Collection :=
  let blog := req.Blog
  match ObjectIDFromHex (GetId blog) with
  | none => (.error ⟨.InvalidArgument, "Cannot parse id: "⟩, c)
  | some oid =>
    let (sr, c1) := c.FindOne env oid
    let err := sr.DecodeValue
    if err = some .ErrNoDocuments then
      (.error ⟨.NotFound, "Blog with id not found: "⟩, c1)
    else
      let data : BlogItem :=
        { ID := oid, AuthorID := GetAuthorId blog, Content := GetContent blog,
          Title := GetTitle blog }
      match c1.ReplaceOne env oid data with
      | (.error _, c2) => (.error ⟨.Internal, "Cannot update object in MongoDB: "⟩, c2)
      | (.ok _, c2) =>
        (.ok ⟨some
          { Id := data.ID.Hex, AuthorId := data.AuthorID, Content := data.Content,
            Title := data.Title }⟩, c2)

/-- The method `server.DeleteBlog`. -/
def DeleteBlog (env : Env) (c : Collection) (req : DeleteBlogRequest) :
    Except Status DeleteBlogResponse × Collection :=
  let blogId := req.BlogId
  match ObjectIDFromHex blogId with
  | none => (.error ⟨.InvalidArgument, "Cannot parse id: "⟩, c)
  | some oid =>
    let (sr, c1) := c.FindOne env oid
    let err := sr.DecodeValue
    if err = some .ErrNoDocuments then
      (.error ⟨.NotFound, "Blog with id not found: "⟩, c1)
    else
      match c1.DeleteOne env oid with
      | (.error _, c2) => (.error ⟨.Internal, "Cannot delete from MongoDB: "⟩, c2)
      | (.ok _, c2) => (.ok ⟨oid.Hex⟩, c2)

/-- The messages handed to `stream.Send`, oldest first.  The source discards the result of
`Send`. -/
abbrev Stream := List ListBlogResponse

/-- The loop `for cur.Next(...) { ... }` of `ListBlog` over the documents the cursor delivers:
a document that does not decode ends the call with `Internal`, any other is sent.  `none` means
the loop ran to the end of the cursor. -/
def listLoop : List Document → Stream → Option Status × Stream
  | [], stream => (none, stream)
  | d :: rest, stream =>
    match d.decode with
    | .error _ => (some ⟨.Internal, "Err while decoding data: "⟩, stream)
    | .ok data =>
      listLoop rest (stream ++ [⟨some
        { Id := data.ID.Hex, AuthorId := data.AuthorID, Content := data.Content,
          Title := data.Title }⟩])

/-- The method `server.ListBlog`: the returned error (`.ok ()` for `nil`), the stream and the
store afterwards.  The one-second pause after each message is not modelled. -/
def ListBlog (env : Env) (c : Collection) (_req : ListBlogRequest) (stream : Stream) :
    Except Status Unit × Stream × Collection :=
  match c.Find env with
  | (.error _, c1) => (.error ⟨.Internal, "Uknown internal err: "⟩, stream, c1)
  | (.ok cur, c1) =>
    match listLoop cur.batch stream with
    | (some st, stream1) => (.error st, stream1, c1)
    | (none, stream1) =>
      match cur.err with
      | some _ => (.error ⟨.Internal, "Error final step: "⟩, stream1, c1)
      | none => (.ok (), stream1, c1)

/-! ## Well-formed identifiers, in the words of the specification -/

/-- The hexadecimal characters, in both cases. -/
def hexChars : List Char := "0123456789abcdefABCDEF".data

/-- The character is a hexadecimal digit. -/
def IsHexChar (c : Char) : Prop := c ∈ hexChars

instance (c : Char) : Decidable (IsHexChar c) := by unfold IsHexChar; infer_instance

/-- The specification's well-formed identifier: exactly 24 hexadecimal characters.  This
definition follows the specification; `ObjectIDFromHex` follows the code, and
`ObjectIDFromHex_isSome_iff` compares the two. -/
def WellFormedID (s : String) : Prop := s.length = 24 ∧ ∀ c ∈ s.data, IsHexChar c

instance (s : String) : Decidable (WellFormedID s) := by unfold WellFormedID; infer_instance

/-- The store invariant MongoDB maintains: no two documents share an `_id`. -/
def UniqueKeys (c : Collection) : Prop := (c.docs.filterMap Document.key).Nodup

instance (c : Collection) : Decidable (UniqueKeys c) := by unfold UniqueKeys; infer_instance

/-! ## The request multiplexer (`server.go`) and the shutdown sequence (`main.go`) -/


/-- The interface `http.Handler`: `ServeHTTP(w, r)` acting on `σ`, which stands for everything
a handler can touch. -/
structure HTTPHandler (W Req σ : Type) where
  ServeHTTP : W → Req → σ → σ

/-- The part of `grpcweb.WrappedGrpcServer` the multiplexer uses. -/
structure WrappedGrpcServer (W Req σ : Type) where
  IsGrpcWebRequest : Req → Bool
  ServeHTTP : W → Req → σ → σ

/-- The struct `grpcMultiplexer`, which embeds `*grpcweb.WrappedGrpcServer`. -/
structure grpcMultiplexer (W Req σ : Type) where
  WrappedGrpcServer : WrappedGrpcServer W Req σ

/-- The method `grpcMultiplexer.Handler`. -/
def grpcMultiplexer.Handler {W Req σ : Type} (m : grpcMultiplexer W Req σ)
    (next : HTTPHandler W Req σ) : HTTPHandler W Req σ :=
  ⟨fun w r st =>
    if m.WrappedGrpcServer.IsGrpcWebRequest r then m.WrappedGrpcServer.ServeHTTP w r st
    else next.ServeHTTP w r st⟩

/-- Which of the two handlers behind the multiplexer was invoked. -/
inductive Target where
  | grpcWeb
  | next
  deriving DecidableEq

/-- One invocation of a handler, with the arguments it received. -/
structure Invocation (W Req : Type) where
  target : Target
  w : W
  r : Req

/-- A wrapped gRPC-web server that only records that it was invoked. -/
def recordingServer {W Req : Type} (isGrpcWeb : Req → Bool) :
    WrappedGrpcServer W Req (List (Invocation W Req)) :=
  ⟨isGrpcWeb, fun w r log => log ++ [⟨.grpcWeb, w, r⟩]⟩

/-- A fallback handler that only records that it was invoked. -/
def recordingNext {W Req : Type} : HTTPHandler W Req (List (Invocation W Req)) :=
  ⟨fun w r log => log ++ [⟨.next, w, r⟩]⟩

/-- The requests of a connection served one after the other by the same handler. -/
def serveAll {W Req σ : Type} (h : HTTPHandler W Req σ) : List (W × Req) → σ → σ
  | [], st => st
  | (w, r) :: rest, st => serveAll h rest (h.ServeHTTP w r st)

/-- The four calls of the shutdown sequence: `s.Stop()`, `lis.Close()`,
`client.Disconnect(context.TODO())` and `srv.Close()`. -/
inductive Step where
  | Stop
  | lisClose
  | Disconnect
  | srvClose
  deriving DecidableEq

/-- What the tail of `main` does to the outside: it prints a line or makes one of the calls. -/
inductive Event where
  | Println (text : String)
  | call (step : Step)
  deriving DecidableEq

/-- The operations the tail of `main` uses, acting on `σ`.  The three `Close`/`Disconnect`
calls return an `error` (`none` for nil); `Stop` returns nothing. -/
structure Runtime (σ : Type) where
  Println : String → σ → σ
  Stop : σ → σ
  lisClose : σ → Option String × σ
  Disconnect : σ → Option String × σ
  srvClose : σ → Option String × σ

/-- The statements of `main` after the receive `<-ch`; every returned error is discarded. -/
def mainShutdown {σ : Type} (rt : Runtime σ) (w0 : σ) : σ :=
  let w1 := rt.Println "Stopping the server..." w0
  let w2 := rt.Stop w1
  let w3 := rt.Println "Stopping the listener..." w2
  let (_, w4) := rt.lisClose w3
  let w5 := rt.Println "Closing MongoDB connection" w4
  let (_, w6) := rt.Disconnect w5
  let w7 := rt.Println "Stopping the http server..." w6
  let (_, w8) := rt.srvClose w7
  w8

/-- A runtime that records every operation and lets each call end as `outcome` says. -/
def tracing (outcome : Step → Option String) : Runtime (List Event) where
  Println := fun text tr => tr ++ [.Println text]
  Stop := fun tr => tr ++ [.call .Stop]
  lisClose := fun tr => (outcome .lisClose, tr ++ [.call .lisClose])
  Disconnect := fun tr => (outcome .Disconnect, tr ++ [.call .Disconnect])
  srvClose := fun tr => (outcome .srvClose, tr ++ [.call .srvClose])

/-- The call recorded by an event, if it is one. -/
def Event.step? : Event → Option Step
  | .Println _ => none
  | .call step => some step

/-! ## Concrete inputs -/

/-- The ObjectID written `612799388e0a217939049563`, the one `client.go` reads. -/
def exampleID : ObjectID := copy12 [97, 39, 153, 56, 142, 10, 33, 121, 57, 4, 149, 99]

/-- The ObjectID written `010203000000000000000000`. -/
def otherID : ObjectID := copy12 [1, 2, 3]

/-- An environment in which no driver call fails and the next generated id is `otherID`. -/
def quietEnv : Env := ⟨otherID, none, none, none, none, none, none⟩

/-- An environment in which `FindOne` fails with an error other than `ErrNoDocuments`. -/
def failingFindEnv : Env :=
  ⟨otherID, none, some (.failure "connection reset"), none, none, none, none⟩

/-- A store holding one blog document, under `exampleID`. -/
def exampleStore : Collection := ⟨[.blog ⟨exampleID, "a", "c", "t"⟩], []⟩

/-! ## The hexadecimal form of identifiers -/

theorem fromHexChar_hexDigit : ∀ n : Fin 16, fromHexChar (hexDigit n.val) = some n := by decide

theorem utf8Size_hexDigit : ∀ n : Fin 16, (hexDigit n.val).utf8Size = 1 := by decide

theorem fromHexChar_of_isHexChar : ∀ c ∈ hexChars, (fromHexChar c).isSome = true := by decide

theorem utf8Size_of_isHexChar : ∀ c ∈ hexChars, c.utf8Size = 1 := by decide

theorem hexRange_of_fromHexChar (c : Char) (h : (fromHexChar c).isSome = true) :
    (48 ≤ c.toNat ∧ c.toNat ≤ 57) ∨ (97 ≤ c.toNat ∧ c.toNat ≤ 102) ∨
      (65 ≤ c.toNat ∧ c.toNat ≤ 70) := by
  unfold fromHexChar at h
  by_cases h1 : '0' ≤ c ∧ c ≤ '9'
  · exact Or.inl h1
  · by_cases h2 : 'a' ≤ c ∧ c ≤ 'f'
    · exact Or.inr (Or.inl h2)
    · by_cases h3 : 'A' ≤ c ∧ c ≤ 'F'
      · exact Or.inr (Or.inr h3)
      · simp [h1, h2, h3] at h

theorem isHexChar_ofNat : ∀ n : Fin 103, (48 ≤ n.val ∧ n.val ≤ 57) ∨ (97 ≤ n.val ∧ n.val ≤ 102) ∨
      (65 ≤ n.val ∧ n.val ≤ 70) → IsHexChar (Char.ofNat n.val) := by
  decide

theorem isHexChar_of_fromHexChar (c : Char) (h : (fromHexChar c).isSome = true) : IsHexChar c := by
  have hr := hexRange_of_fromHexChar c h
  have hlt : c.toNat < 103 := by omega
  have := isHexChar_ofNat ⟨c.toNat, hlt⟩ hr
  simpa [Char.ofNat_toNat] using this

theorem fromHexChar_isSome_iff (c : Char) : (fromHexChar c).isSome = true ↔ IsHexChar c :=
  ⟨isHexChar_of_fromHexChar c, fromHexChar_of_isHexChar c⟩

theorem mkByte_div_mod (b : Fin 256) :
    mkByte ⟨b.val / 16, by omega⟩ ⟨b.val % 16, by omega⟩ = b := by
  apply Fin.ext
  simp only [mkByte]
  omega

theorem hexDecode_hexEncode (bs : List (Fin 256)) : hexDecode (hexEncode bs) = some bs := by
  induction bs with
  | nil => rfl
  | cons b bs ih =>
    have h1 := fromHexChar_hexDigit ⟨b.val / 16, by omega⟩
    have h2 := fromHexChar_hexDigit ⟨b.val % 16, by omega⟩
    simp only [hexEncode, hexDecode, h1, h2, ih, Option.map_some', mkByte_div_mod]

theorem utf8Len_hexEncode (bs : List (Fin 256)) :
    String.utf8Len (hexEncode bs) = 2 * bs.length := by
  induction bs with
  | nil => rfl
  | cons b bs ih =>
    have h1 := utf8Size_hexDigit ⟨b.val / 16, by omega⟩
    have h2 := utf8Size_hexDigit ⟨b.val % 16, by omega⟩
    simp only [hexEncode, String.utf8Len_cons, ih, h1, h2, List.length_cons]
    omega

theorem copy12_bytes (id : ObjectID) : copy12 id.bytes = id := by
  cases id with
  | mk bytes size =>
    simp only [copy12, ObjectID.mk.injEq]
    rw [List.take_append_of_le_length (by omega)]
    exact List.take_of_length_le (by omega)

theorem ObjectIDFromHex_Hex (id : ObjectID) : ObjectIDFromHex id.Hex = some id := by
  have hlen : id.Hex.utf8ByteSize = 24 := by
    simp only [ObjectID.Hex, String.utf8ByteSize_mk, utf8Len_hexEncode, id.size]
  unfold ObjectIDFromHex
  rw [if_neg (by simp [hlen])]
  simp only [ObjectID.Hex, hexDecode_hexEncode, Option.map_some', copy12_bytes]

theorem Hex_length (id : ObjectID) : id.Hex.length = 24 := by
  have : ∀ bs : List (Fin 256), (hexEncode bs).length = 2 * bs.length := by
    intro bs
    induction bs with
    | nil => rfl
    | cons b bs ih => simp only [hexEncode, List.length_cons, ih]; omega
  simp only [ObjectID.Hex, String.length, this, id.size]

theorem Hex_ne_empty (id : ObjectID) : id.Hex ≠ "" := by
  intro h
  have := Hex_length id
  rw [h] at this
  simp at this

/-- A string of hexadecimal digits occupies one byte per character. -/
theorem utf8Len_of_hex (cs : List Char) (h : ∀ c ∈ cs, IsHexChar c) :
    String.utf8Len cs = cs.length := by
  induction cs with
  | nil => rfl
  | cons c cs ih =>
    have hc := utf8Size_of_isHexChar c (h c (List.mem_cons_self _ _))
    simp only [String.utf8Len_cons, List.length_cons, hc,
      ih (fun d hd => h d (List.mem_cons_of_mem _ hd))]

theorem hexDecode_isSome_iff : ∀ cs : List Char,
    (hexDecode cs).isSome = true ↔ (cs.length % 2 = 0 ∧ ∀ c ∈ cs, IsHexChar c)
  | [] => by simp [hexDecode]
  | [c] => by simp [hexDecode]
  | p :: q :: rest => by
    have ih := hexDecode_isSome_iff rest
    have hp := fromHexChar_isSome_iff p
    have hq := fromHexChar_isSome_iff q
    cases hfp : fromHexChar p with
    | none =>
      rw [hfp] at hp
      simp only [hexDecode, hfp]
      simp at hp
      simp [hp]
    | some a =>
      cases hfq : fromHexChar q with
      | none =>
        rw [hfq] at hq
        simp only [hexDecode, hfp, hfq]
        simp at hq
        simp [hq]
      | some b =>
        rw [hfp] at hp
        rw [hfq] at hq
        simp only [Option.isSome_some, true_iff] at hp hq
        simp only [hexDecode, hfp, hfq, Option.isSome_map', ih, List.length_cons,
          List.mem_cons, forall_eq_or_imp, hp, hq, true_and]
        constructor
        · rintro ⟨h1, h2⟩; exact ⟨by omega, h2⟩
        · rintro ⟨h1, h2⟩; exact ⟨by omega, h2⟩

theorem ObjectIDFromHex_isSome_iff (s : String) :
    (ObjectIDFromHex s).isSome = true ↔ WellFormedID s := by
  unfold ObjectIDFromHex WellFormedID
  constructor
  · intro h
    by_cases hl : s.utf8ByteSize = 24
    · simp only [hl, ne_eq, not_true_eq_false, if_false, Option.isSome_map'] at h
      have hd := (hexDecode_isSome_iff s.data).1 h
      have := utf8Len_of_hex s.data hd.2
      refine ⟨?_, hd.2⟩
      have h2 : s.utf8ByteSize = String.utf8Len s.data := rfl
      simp only [String.length]
      omega
    · simp [hl] at h
  · rintro ⟨hl, hh⟩
    have := utf8Len_of_hex s.data hh
    have h2 : s.utf8ByteSize = String.utf8Len s.data := rfl
    simp only [String.length] at hl
    have hl2 : s.utf8ByteSize = 24 := by omega
    simp only [hl2, ne_eq, not_true_eq_false, if_false, Option.isSome_map']
    exact (hexDecode_isSome_iff s.data).2 ⟨by omega, hh⟩

theorem ObjectIDFromHex_eq_none_iff (s : String) :
    ObjectIDFromHex s = none ↔ ¬ WellFormedID s := by
  rw [← ObjectIDFromHex_isSome_iff]
  cases ObjectIDFromHex s <;> simp

/-! ## Lemmas on the store and the handlers -/

theorem find?_hasKey_eq_none (oid : ObjectID) (docs : List Document)
    (h : ∀ d ∈ docs, d.key ≠ some oid) : docs.find? (Document.hasKey oid) = none := by
  rw [List.find?_eq_none]
  intro d hd
  simpa [Document.hasKey] using h d hd

theorem any_hasKey_iff (oid : ObjectID) (docs : List Document) :
    docs.any (Document.hasKey oid) = true ↔ ∃ d ∈ docs, d.key = some oid := by
  simp [List.any_eq_true, Document.hasKey]

theorem find?_replaceFirst (oid : ObjectID) (new : Document) (hnew : new.key = some oid) :
    ∀ docs : List Document, (∃ d ∈ docs, d.key = some oid) →
      (replaceFirst oid new docs).find? (Document.hasKey oid) = some new
  | [], h => by simp at h
  | d :: ds, h => by
    by_cases hd : d.hasKey oid = true
    · have hn : new.hasKey oid = true := by simp [Document.hasKey, hnew]
      rw [replaceFirst, if_pos hd, List.find?_cons_of_pos _ hn]
    · have hd2 : d.key ≠ some oid := by simpa [Document.hasKey] using hd
      have hrest : ∃ e ∈ ds, e.key = some oid := by
        obtain ⟨e, he, hk⟩ := h
        rcases List.mem_cons.1 he with rfl | he
        · exact absurd hk hd2
        · exact ⟨e, he, hk⟩
      rw [replaceFirst, if_neg hd, List.find?_cons_of_neg _ hd]
      exact find?_replaceFirst oid new hnew ds hrest

theorem find?_eraseP_hasKey (oid : ObjectID) :
    ∀ docs : List Document, (docs.filterMap Document.key).Nodup →
      (docs.eraseP (Document.hasKey oid)).find? (Document.hasKey oid) = none
  | [], _ => by simp
  | d :: ds, h => by
    by_cases hd : d.hasKey oid = true
    · have hk : d.key = some oid := by simpa [Document.hasKey] using hd
      rw [List.eraseP_cons_of_pos hd]
      rw [List.filterMap_cons_some hk, List.nodup_cons] at h
      apply find?_hasKey_eq_none
      intro e he hek
      exact h.1 (List.mem_filterMap.2 ⟨e, he, hek⟩)
    · have hnd : (ds.filterMap Document.key).Nodup := by
        cases hk : d.key with
        | none => rw [List.filterMap_cons_none hk] at h; exact h
        | some k => rw [List.filterMap_cons_some hk, List.nodup_cons] at h; exact h.2
      rw [List.eraseP_cons_of_neg hd]
      simp [List.find?_cons, hd, find?_eraseP_hasKey oid ds hnd]

theorem ReadBlog_found (env : Env) (c : Collection) (s : String) (oid : ObjectID)
    (item : BlogItem) (hs : ObjectIDFromHex s = some oid) (hfind : env.findOne = none)
    (hdoc : c.docs.find? (Document.hasKey oid) = some (.blog item)) :
    ReadBlog env c ⟨s⟩ =
      (.ok ⟨some ⟨item.ID.Hex, item.AuthorID, item.Title, item.Content⟩⟩,
        c.issue (.FindOne oid)) := by
  simp [ReadBlog, hs, Collection.FindOne, hfind, hdoc, SingleResult.Decode]

theorem ReadBlog_absent (env : Env) (c : Collection) (s : String) (oid : ObjectID)
    (hs : ObjectIDFromHex s = some oid) (hfind : env.findOne = none)
    (hdoc : c.docs.find? (Document.hasKey oid) = none) :
    ReadBlog env c ⟨s⟩ =
      (.error ⟨.NotFound, "Blog with id not found: "⟩, c.issue (.FindOne oid)) := by
  simp [ReadBlog, hs, Collection.FindOne, hfind, hdoc, SingleResult.Decode]

theorem DecodeValue_of_present (env : Env) (c : Collection) (oid : ObjectID)
    (hdoc : ∃ d ∈ c.docs, d.key = some oid)
    (hfind : env.findOne ≠ some .ErrNoDocuments) :
    (c.FindOne env oid).1.DecodeValue ≠ some .ErrNoDocuments := by
  obtain ⟨d, hd, hk⟩ := hdoc
  cases hf : env.findOne with
  | some e =>
    simp only [Collection.FindOne, hf, SingleResult.DecodeValue]
    rw [hf] at hfind
    exact hfind
  | none =>
    simp only [Collection.FindOne, hf, SingleResult.DecodeValue]
    cases hc : c.docs.find? (Document.hasKey oid) with
    | none =>
      rw [List.find?_eq_none] at hc
      exact absurd (by simp [Document.hasKey, hk]) (hc d hd)
    | some _ => simp

theorem FindOne_snd (env : Env) (c : Collection) (oid : ObjectID) :
    (c.FindOne env oid).2 = c.issue (.FindOne oid) := by
  unfold Collection.FindOne
  cases env.findOne <;> rfl

theorem CreateBlog_ok (env : Env) (c : Collection) (blog : Option Blog)
    (hins : env.insertOne = none)
    (hfresh : c.docs.any (Document.hasKey env.newObjectID) = false) :
    CreateBlog env c ⟨blog⟩ =
      (.ok ⟨some ⟨env.newObjectID.Hex, GetAuthorId blog, GetTitle blog, GetContent blog⟩⟩,
        ⟨c.docs ++ [.blog ⟨env.newObjectID, GetAuthorId blog, GetContent blog, GetTitle blog⟩],
          c.calls ++ [.InsertOne]⟩) := by
  simp [CreateBlog, Collection.InsertOne, hins, hfresh, Collection.issue]

theorem UpdateBlog_ok (env : Env) (c : Collection) (blog : Option Blog) (oid : ObjectID)
    (hs : ObjectIDFromHex (GetId blog) = some oid)
    (hdoc : ∃ d ∈ c.docs, d.key = some oid)
    (hfind : env.findOne ≠ some .ErrNoDocuments) (hrep : env.replaceOne = none) :
    UpdateBlog env c ⟨blog⟩ =
      (.ok ⟨some ⟨oid.Hex, GetAuthorId blog, GetTitle blog, GetContent blog⟩⟩,
        ⟨replaceFirst oid (.blog ⟨oid, GetAuthorId blog, GetContent blog, GetTitle blog⟩) c.docs,
          c.calls ++ [.FindOne oid, .ReplaceOne oid]⟩) := by
  have hdv := DecodeValue_of_present env c oid hdoc hfind
  have hany := (any_hasKey_iff oid c.docs).2 hdoc
  have hsnd := FindOne_snd env c oid
  simp only [UpdateBlog, hs]
  rw [if_neg hdv, hsnd]
  simp [Collection.ReplaceOne, hrep, Collection.issue, hany]

theorem DeleteBlog_ok (env : Env) (c : Collection) (s : String) (oid : ObjectID)
    (hs : ObjectIDFromHex s = some oid)
    (hdoc : ∃ d ∈ c.docs, d.key = some oid)
    (hfind : env.findOne ≠ some .ErrNoDocuments) (hdel : env.deleteOne = none) :
    DeleteBlog env c ⟨s⟩ =
      (.ok ⟨oid.Hex⟩,
        ⟨c.docs.eraseP (Document.hasKey oid), c.calls ++ [.FindOne oid, .DeleteOne oid]⟩) := by
  have hdv := DecodeValue_of_present env c oid hdoc hfind
  have hany := (any_hasKey_iff oid c.docs).2 hdoc
  have hsnd := FindOne_snd env c oid
  simp only [DeleteBlog, hs]
  rw [if_neg hdv, hsnd]
  simp [Collection.DeleteOne, hdel, Collection.issue, hany]

theorem listLoop_blogs (items : List BlogItem) : ∀ stream : Stream,
    listLoop (items.map Document.blog) stream =
      (none, stream ++ items.map
        (fun it => ⟨some ⟨it.ID.Hex, it.AuthorID, it.Title, it.Content⟩⟩)) := by
  induction items with
  | nil => intro stream; simp [listLoop]
  | cons it rest ih =>
    intro stream
    simp [listLoop, Document.decode, ih]

theorem hexDigit_fromHexChar_mem : ∀ c ∈ hexChars,
    (fromHexChar c).map (fun v => hexDigit v.val) = some c.toLower := by decide

theorem hexDigit_fromHexChar (c : Char) (v : Fin 16) (h : fromHexChar c = some v) :
    hexDigit v.val = c.toLower := by
  have hc : IsHexChar c := isHexChar_of_fromHexChar c (by simp [h])
  have := hexDigit_fromHexChar_mem c hc
  rw [h] at this
  simpa using this

theorem hexEncode_hexDecode : ∀ (cs : List Char) (bs : List (Fin 256)),
    hexDecode cs = some bs → hexEncode bs = cs.map Char.toLower ∧ cs.length = 2 * bs.length
  | [], bs, h => by
    simp only [hexDecode, Option.some.injEq] at h
    subst h
    exact ⟨rfl, rfl⟩
  | [_], bs, h => by simp [hexDecode] at h
  | p :: q :: rest, bs, h => by
    cases hp : fromHexChar p with
    | none => simp [hexDecode, hp] at h
    | some a =>
      cases hq : fromHexChar q with
      | none => simp [hexDecode, hp, hq] at h
      | some b =>
        cases hr : hexDecode rest with
        | none => simp [hexDecode, hp, hq, hr] at h
        | some tl =>
          simp only [hexDecode, hp, hq, hr, Option.map_some', Option.some.injEq] at h
          subst h
          obtain ⟨ih1, ih2⟩ := hexEncode_hexDecode rest tl hr
          have ha : (mkByte a b).val / 16 = a.val := by simp only [mkByte]; omega
          have hb : (mkByte a b).val % 16 = b.val := by simp only [mkByte]; omega
          refine ⟨?_, by simp only [List.length_cons, ih2]; omega⟩
          simp only [hexEncode, ha, hb, hexDigit_fromHexChar p a hp, hexDigit_fromHexChar q b hq,
            ih1, List.map_cons]

theorem Hex_of_ObjectIDFromHex (s : String) (oid : ObjectID) (h : ObjectIDFromHex s = some oid) :
    oid.Hex = s.toLower := by
  have hw : WellFormedID s := (ObjectIDFromHex_isSome_iff s).1 (by simp [h])
  unfold ObjectIDFromHex at h
  by_cases hl : s.utf8ByteSize = 24
  · rw [if_neg (by simp [hl])] at h
    cases hd : hexDecode s.data with
    | none => simp [hd] at h
    | some bs =>
      simp only [hd, Option.map_some', Option.some.injEq] at h
      obtain ⟨he, hlen⟩ := hexEncode_hexDecode s.data bs hd
      have h12 : bs.length = 12 := by
        have := hw.1
        simp only [String.length] at this
        omega
      have hb : oid.bytes = bs := by
        rw [← h]
        simp only [copy12]
        rw [List.take_append_of_le_length (by omega)]
        exact List.take_of_length_le (by omega)
      simp only [ObjectID.Hex, hb, he, String.toLower, String.map_eq]
  · simp [hl] at h

theorem toLower_of_not_isUpper (c : Char) (h : c.isUpper = false) : c.toLower = c := by
  unfold Char.toLower
  simp only [Char.isUpper, Bool.and_eq_false_imp, decide_eq_true_eq, decide_eq_false_iff_not] at h
  have : ¬ (c.toNat ≥ 65 ∧ c.toNat ≤ 90) := by
    rintro ⟨h1, h2⟩
    exact h h1 h2
  simp only [this, if_false]

theorem toLower_of_no_upper (s : String) (h : ∀ c ∈ s.data, c.isUpper = false) :
    s.toLower = s := by
  have : s.data.map Char.toLower = s.data := by
    conv_rhs => rw [← List.map_id s.data]
    exact List.map_congr_left (fun c hc => toLower_of_not_isUpper c (h c hc))
  simp only [String.toLower, String.map_eq, this]

theorem serveAll_recording {W Req : Type} (isGrpcWeb : Req → Bool)
    (reqs : List (W × Req)) : ∀ log : List (Invocation W Req),
    serveAll ((grpcMultiplexer.mk (recordingServer isGrpcWeb)).Handler recordingNext) reqs log =
      log ++ reqs.map
        (fun p => ⟨if isGrpcWeb p.2 then Target.grpcWeb else Target.next, p.1, p.2⟩) := by
  induction reqs with
  | nil => intro log; simp [serveAll]
  | cons p rest ih =>
    intro log
    obtain ⟨w, r⟩ := p
    simp only [serveAll, ih, List.map_cons]
    cases h : isGrpcWeb r <;>
      simp [grpcMultiplexer.Handler, recordingServer, recordingNext, h]

theorem filterMap_key_replaceFirst (oid : ObjectID) (new : Document) (hnew : new.key = some oid) :
    ∀ docs : List Document,
      (replaceFirst oid new docs).filterMap Document.key = docs.filterMap Document.key
  | [] => rfl
  | d :: ds => by
    by_cases hd : d.hasKey oid = true
    · have hk : d.key = some oid := by simpa [Document.hasKey] using hd
      rw [replaceFirst, if_pos hd, List.filterMap_cons_some hnew, List.filterMap_cons_some hk]
    · rw [replaceFirst, if_neg hd]
      cases hk : d.key with
      | none =>
        rw [List.filterMap_cons_none hk, List.filterMap_cons_none hk,
          filterMap_key_replaceFirst oid new hnew ds]
      | some k =>
        rw [List.filterMap_cons_some hk, List.filterMap_cons_some hk,
          filterMap_key_replaceFirst oid new hnew ds]

theorem InsertOne_uniqueKeys (env : Env) (c : Collection) (data : BlogItem)
    (h : UniqueKeys c) : UniqueKeys (c.InsertOne env data).2 := by
  unfold Collection.InsertOne
  cases env.insertOne with
  | some e => exact h
  | none =>
    simp only
    generalize (if data.ID = NilObjectID then env.newObjectID else data.ID) = id
    by_cases hdup : c.docs.any (Document.hasKey id) = true
    · rw [if_pos hdup]
      exact h
    · rw [if_neg hdup]
      simp only [UniqueKeys, Collection.issue, List.filterMap_append, List.filterMap_cons,
        Document.key, List.filterMap_nil]
      refine List.Nodup.append h (List.nodup_singleton _) ?_
      intro k hk hk2
      rw [List.mem_singleton] at hk2
      obtain ⟨d, hd, hdk⟩ := List.mem_filterMap.1 hk
      exact hdup (List.any_eq_true.2 ⟨d, hd, by simp [Document.hasKey, hdk, hk2]⟩)

theorem ReplaceOne_uniqueKeys (env : Env) (c : Collection) (oid : ObjectID) (data : BlogItem)
    (h : UniqueKeys c) : UniqueKeys (c.ReplaceOne env oid data).2 := by
  unfold Collection.ReplaceOne
  cases env.replaceOne with
  | some e => exact h
  | none =>
    simp only
    split
    · split
      · exact h
      · simp only [UniqueKeys, Collection.issue]
        rw [filterMap_key_replaceFirst oid (.blog { data with ID := oid }) rfl]
        exact h
    · exact h

theorem DeleteOne_uniqueKeys (env : Env) (c : Collection) (oid : ObjectID)
    (h : UniqueKeys c) : UniqueKeys (c.DeleteOne env oid).2 := by
  unfold Collection.DeleteOne
  cases env.deleteOne with
  | some e => exact h
  | none =>
    simp only
    split
    · exact List.Nodup.sublist ((List.eraseP_sublist c.docs).filterMap _) h
    · exact h

theorem FindOne_uniqueKeys (env : Env) (c : Collection) (oid : ObjectID)
    (h : UniqueKeys c) : UniqueKeys (c.FindOne env oid).2 := by
  rw [FindOne_snd]
  exact h

theorem Find_uniqueKeys (env : Env) (c : Collection)
    (h : UniqueKeys c) : UniqueKeys (c.Find env).2 := by
  unfold Collection.Find
  cases env.find with
  | some e => exact h
  | none =>
    cases env.cursor with
    | none => exact h
    | some p => exact h

/-- The handlers keep the identifiers of the stored documents pairwise distinct. -/
theorem handlers_keep_uniqueKeys (env : Env) (c : Collection) (h : UniqueKeys c) :
    (∀ req, UniqueKeys (CreateBlog env c req).2) ∧ (∀ req, UniqueKeys (ReadBlog env c req).2) ∧
    (∀ req, UniqueKeys (UpdateBlog env c req).2) ∧ (∀ req, UniqueKeys (DeleteBlog env c req).2) ∧
    (∀ req stream, UniqueKeys (ListBlog env c req stream).2.2) := by
  refine ⟨?_, ?_, ?_, ?_, ?_⟩
  · intro req
    have := InsertOne_uniqueKeys env c
      ⟨NilObjectID, GetAuthorId req.Blog, GetContent req.Blog, GetTitle req.Blog⟩ h
    unfold CreateBlog
    simp only
    split
    · rename_i heq; rw [heq] at this; exact this
    · rename_i heq; rw [heq] at this
      split <;> exact this
  · intro req
    unfold ReadBlog
    simp only
    split
    · exact h
    · rename_i oid _
      have := FindOne_uniqueKeys env c oid h
      split <;> exact this
  · intro req
    unfold UpdateBlog
    simp only
    split
    · exact h
    · rename_i oid _
      have h1 := FindOne_uniqueKeys env c oid h
      split
      · exact h1
      · have h2 := ReplaceOne_uniqueKeys env (c.FindOne env oid).2 oid
          ⟨oid, GetAuthorId req.Blog, GetContent req.Blog, GetTitle req.Blog⟩ h1
        split
        · rename_i heq; rw [heq] at h2; exact h2
        · rename_i heq; rw [heq] at h2; exact h2
  · intro req
    unfold DeleteBlog
    simp only
    split
    · exact h
    · rename_i oid _
      have h1 := FindOne_uniqueKeys env c oid h
      split
      · exact h1
      · have h2 := DeleteOne_uniqueKeys env (c.FindOne env oid).2 oid h1
        split
        · rename_i heq; rw [heq] at h2; exact h2
        · rename_i heq; rw [heq] at h2; exact h2
  · intro req stream
    have h1 := Find_uniqueKeys env c h
    unfold ListBlog
    split
    · rename_i heq; rw [heq] at h1; exact h1
    · rename_i heq; rw [heq] at h1
      split
      · exact h1
      · split <;> exact h1


/-! ## Driver failures on the other paths -/

/-- A failed `InsertOne` makes `CreateBlog` return `Internal`. -/
theorem CreateBlog_insert_failure (env : Env) (c : Collection) (req : CreateBlogRequest)
    (e : DriverError) (h : env.insertOne = some e) :
    ∃ st c1, CreateBlog env c req = (.error st, c1) ∧ st.code = Code.Internal :=
  ⟨⟨.Internal, "Internal error: "⟩, c.issue .InsertOne,
    by simp [CreateBlog, Collection.InsertOne, h], rfl⟩

/-- A failed `ReplaceOne` makes `UpdateBlog` return `Internal`, once the lookup has let the
call through. -/
theorem UpdateBlog_replace_failure (env : Env) (c : Collection) (blog : Option Blog)
    (oid : ObjectID) (e : DriverError) (hs : ObjectIDFromHex (GetId blog) = some oid)
    (hdoc : ∃ d ∈ c.docs, d.key = some oid)
    (hfind : env.findOne ≠ some .ErrNoDocuments) (h : env.replaceOne = some e) :
    ∃ st c1, UpdateBlog env c ⟨blog⟩ = (.error st, c1) ∧ st.code = Code.Internal := by
  have hdv := DecodeValue_of_present env c oid hdoc hfind
  refine ⟨⟨.Internal, "Cannot update object in MongoDB: "⟩,
    (c.issue (.FindOne oid)).issue (.ReplaceOne oid), ?_, rfl⟩
  simp only [UpdateBlog, hs]
  rw [if_neg hdv, FindOne_snd]
  simp [Collection.ReplaceOne, h]

/-- A failed `DeleteOne` makes `DeleteBlog` return `Internal`, once the lookup has let the
call through. -/
theorem DeleteBlog_delete_failure (env : Env) (c : Collection) (s : String)
    (oid : ObjectID) (e : DriverError) (hs : ObjectIDFromHex s = some oid)
    (hdoc : ∃ d ∈ c.docs, d.key = some oid)
    (hfind : env.findOne ≠ some .ErrNoDocuments) (h : env.deleteOne = some e) :
    ∃ st c1, DeleteBlog env c ⟨s⟩ = (.error st, c1) ∧ st.code = Code.Internal := by
  have hdv := DecodeValue_of_present env c oid hdoc hfind
  refine ⟨⟨.Internal, "Cannot delete from MongoDB: "⟩,
    (c.issue (.FindOne oid)).issue (.DeleteOne oid), ?_, rfl⟩
  simp only [DeleteBlog, hs]
  rw [if_neg hdv, FindOne_snd]
  simp [Collection.DeleteOne, h]

/-- The loop of `ListBlog` ends either at the end of the cursor or with `Internal`. -/
theorem listLoop_code : ∀ (docs : List Document) (stream : Stream) (st : Status)
    (stream1 : Stream), listLoop docs stream = (some st, stream1) → st.code = Code.Internal
  | [], stream, st, stream1, h => by simp [listLoop] at h
  | d :: rest, stream, st, stream1, h => by
    cases hd : d.decode with
    | error e =>
      simp only [listLoop, hd, Prod.mk.injEq, Option.some.injEq] at h
      rw [← h.1]
    | ok data =>
      simp only [listLoop, hd] at h
      exact listLoop_code rest _ st stream1 h

/-- A document that does not decode makes the loop of `ListBlog` end with an error. -/
theorem listLoop_undecodable : ∀ (docs : List Document) (stream : Stream),
    (∃ d ∈ docs, ∃ e, d.decode = .error e) → ∃ st stream1, listLoop docs stream = (some st, stream1)
  | [], _, h => by simp at h
  | d :: rest, stream, h => by
    cases hd : d.decode with
    | error e =>
      exact ⟨⟨.Internal, "Err while decoding data: "⟩, stream, by simp only [listLoop, hd]⟩
    | ok data =>
      have hrest : ∃ d2 ∈ rest, ∃ e, d2.decode = .error e := by
        obtain ⟨d2, hm, e, he⟩ := h
        rcases List.mem_cons.1 hm with rfl | hm
        · rw [hd] at he; exact Except.noConfusion he
        · exact ⟨d2, hm, e, he⟩
      obtain ⟨st, stream1, hl⟩ := listLoop_undecodable rest
        (stream ++ [⟨some ⟨data.ID.Hex, data.AuthorID, data.Title, data.Content⟩⟩]) hrest
      exact ⟨st, stream1, by simp only [listLoop, hd, hl]⟩

/-- A failed `Find`, a cursor error, or a delivered document that does not decode makes
`ListBlog` return `Internal`. -/
theorem ListBlog_failure (env : Env) (c : Collection) (req : ListBlogRequest) (stream : Stream)
    (h : env.find ≠ none ∨ env.cursor ≠ none ∨ ∃ d ∈ c.docs, ∃ e, d.decode = .error e) :
    ∃ st stream1 c1, ListBlog env c req stream = (.error st, stream1, c1) ∧
      st.code = Code.Internal := by
  cases hf : env.find with
  | some e =>
    exact ⟨⟨.Internal, "Uknown internal err: "⟩, stream, c.issue .Find,
      by simp [ListBlog, Collection.Find, hf], rfl⟩
  | none =>
    cases hc : env.cursor with
    | some p =>
      obtain ⟨n, e⟩ := p
      cases hl : listLoop (c.docs.take n) stream with
      | mk res stream1 =>
        cases res with
        | some st =>
          exact ⟨st, stream1, c.issue .Find, by simp [ListBlog, Collection.Find, hf, hc, hl],
            listLoop_code _ _ _ _ hl⟩
        | none =>
          exact ⟨⟨.Internal, "Error final step: "⟩, stream1, c.issue .Find,
            by simp [ListBlog, Collection.Find, hf, hc, hl], rfl⟩
    | none =>
      have hdoc : ∃ d ∈ c.docs, ∃ e, d.decode = .error e := by
        rcases h with h | h | h
        · exact absurd hf h
        · exact absurd hc h
        · exact h
      obtain ⟨st, stream1, hl⟩ := listLoop_undecodable c.docs stream hdoc
      exact ⟨st, stream1, c.issue .Find, by simp [ListBlog, Collection.Find, hf, hc, hl],
        listLoop_code _ _ _ _ hl⟩

/-! ## The claims -/

/-- Claim C1.  When the id string of a request is not a well-formed identifier (not exactly 24
hexadecimal characters), `ReadBlog`, `UpdateBlog` and `DeleteBlog` each return an error with
code `InvalidArgument`, and the store afterwards is the store before: same documents, and no
driver call has been issued. -/
theorem malformed_id_invalidArgument (env : Env) (c : Collection) (s : String)
    (h : ¬ WellFormedID s) :
    (∃ st, ReadBlog env c ⟨s⟩ = (.error st, c) ∧ st.code = Code.InvalidArgument) ∧
    (∀ req : UpdateBlogRequest, GetId req.Blog = s →
      ∃ st, UpdateBlog env c req = (.error st, c) ∧ st.code = Code.InvalidArgument) ∧
    (∃ st, DeleteBlog env c ⟨s⟩ = (.error st, c) ∧ st.code = Code.InvalidArgument) := by
  have hp := (ObjectIDFromHex_eq_none_iff s).2 h
  refine ⟨⟨⟨.InvalidArgument, "Cannot parse id: "⟩, ?_, rfl⟩, ?_,
    ⟨⟨.InvalidArgument, "Cannot parse id: "⟩, ?_, rfl⟩⟩
  · simp only [ReadBlog, hp]
  · intro req hreq
    refine ⟨⟨.InvalidArgument, "Cannot parse id: "⟩, ?_, rfl⟩
    simp only [UpdateBlog, hreq, hp]
  · simp only [DeleteBlog, hp]

/-- Claim C1 at a 24-character string whose last character is not a hexadecimal digit. -/
theorem malformed_id_invalidArgument_witness :
    ¬ WellFormedID "612799388e0a21793904956z" ∧
    ((∃ st, ReadBlog quietEnv exampleStore ⟨"612799388e0a21793904956z"⟩ =
        (.error st, exampleStore) ∧ st.code = Code.InvalidArgument) ∧
    (∀ req : UpdateBlogRequest, GetId req.Blog = "612799388e0a21793904956z" →
      ∃ st, UpdateBlog quietEnv exampleStore req = (.error st, exampleStore) ∧
        st.code = Code.InvalidArgument) ∧
    (∃ st, DeleteBlog quietEnv exampleStore ⟨"612799388e0a21793904956z"⟩ =
        (.error st, exampleStore) ∧ st.code = Code.InvalidArgument)) :=
  ⟨by decide,
    malformed_id_invalidArgument quietEnv exampleStore "612799388e0a21793904956z" (by decide)⟩

/-- Claim C2.  When the id string is well formed, no stored document has the identifier it
denotes, and the lookup itself reports no driver failure, `ReadBlog`, `UpdateBlog` and
`DeleteBlog` each return an error with code `NotFound`. -/
theorem absent_id_notFound (env : Env) (c : Collection) (s : String)
    (hw : WellFormedID s) (hf : env.findOne = none)
    (habs : ∀ d ∈ c.docs, d.key ≠ ObjectIDFromHex s) :
    (∃ st c1, ReadBlog env c ⟨s⟩ = (.error st, c1) ∧ st.code = Code.NotFound) ∧
    (∀ req : UpdateBlogRequest, GetId req.Blog = s →
      ∃ st c1, UpdateBlog env c req = (.error st, c1) ∧ st.code = Code.NotFound) ∧
    (∃ st c1, DeleteBlog env c ⟨s⟩ = (.error st, c1) ∧ st.code = Code.NotFound) := by
  obtain ⟨oid, hp⟩ := Option.isSome_iff_exists.1 ((ObjectIDFromHex_isSome_iff s).2 hw)
  rw [hp] at habs
  have hfind := find?_hasKey_eq_none oid c.docs habs
  refine ⟨⟨⟨.NotFound, "Blog with id not found: "⟩, c.issue (.FindOne oid), ?_, rfl⟩, ?_,
    ⟨⟨.NotFound, "Blog with id not found: "⟩, c.issue (.FindOne oid), ?_, rfl⟩⟩
  · simp [ReadBlog, hp, Collection.FindOne, hf, hfind, SingleResult.Decode]
  · intro req hreq
    refine ⟨⟨.NotFound, "Blog with id not found: "⟩, c.issue (.FindOne oid), ?_, rfl⟩
    simp [UpdateBlog, hreq, hp, Collection.FindOne, hf, hfind, SingleResult.DecodeValue]
  · simp [DeleteBlog, hp, Collection.FindOne, hf, hfind, SingleResult.DecodeValue]

/-- Claim C2 at a well-formed id that the one-document store does not hold. -/
theorem absent_id_notFound_witness :
    WellFormedID "61278773c47c2cefe0ba555a" ∧ quietEnv.findOne = none ∧
    (∀ d ∈ exampleStore.docs, d.key ≠ ObjectIDFromHex "61278773c47c2cefe0ba555a") ∧
    ((∃ st c1, ReadBlog quietEnv exampleStore ⟨"61278773c47c2cefe0ba555a"⟩ = (.error st, c1) ∧
        st.code = Code.NotFound) ∧
    (∀ req : UpdateBlogRequest, GetId req.Blog = "61278773c47c2cefe0ba555a" →
      ∃ st c1, UpdateBlog quietEnv exampleStore req = (.error st, c1) ∧
        st.code = Code.NotFound) ∧
    (∃ st c1, DeleteBlog quietEnv exampleStore ⟨"61278773c47c2cefe0ba555a"⟩ = (.error st, c1) ∧
        st.code = Code.NotFound)) :=
  ⟨by decide, rfl, by decide,
    absent_id_notFound quietEnv exampleStore "61278773c47c2cefe0ba555a" (by decide) rfl
      (by decide)⟩

/-- Claim C3.  For every Blog input and every store on which the insert succeeds, `CreateBlog`
returns a Blog with a non-empty id, and `ReadBlog` of that id on the resulting store (its lookup
reporting no driver failure) succeeds with a Blog that has the same id and the input's authorId,
title and content. -/
theorem create_then_read (env env2 : Env) (c : Collection) (b : Blog)
    (hins : ∃ r, (c.InsertOne env ⟨NilObjectID, b.AuthorId, b.Content, b.Title⟩).1 = .ok r)
    (hfind : env2.findOne = none) :
    ∃ created c1, CreateBlog env c ⟨some b⟩ = (.ok ⟨some created⟩, c1) ∧ created.Id ≠ "" ∧
      ∃ c2, ReadBlog env2 c1 ⟨created.Id⟩ =
        (.ok ⟨some ⟨created.Id, b.AuthorId, b.Title, b.Content⟩⟩, c2) := by
  obtain ⟨r, hr⟩ := hins
  cases hfault : env.insertOne with
  | some e => simp [Collection.InsertOne, hfault] at hr
  | none =>
    cases hdup : c.docs.any (Document.hasKey env.newObjectID) with
    | true => simp [Collection.InsertOne, hfault, hdup] at hr
    | false =>
      have hfresh : c.docs.find? (Document.hasKey env.newObjectID) = none := by
        rw [List.find?_eq_none]
        intro d hd hk
        have := List.any_eq_true.2 ⟨d, hd, hk⟩
        rw [hdup] at this
        exact Bool.noConfusion this
      refine ⟨_, _, CreateBlog_ok env c (some b) hfault hdup, Hex_ne_empty _, _,
        ReadBlog_found env2 _ _ env.newObjectID
          ⟨env.newObjectID, b.AuthorId, b.Content, b.Title⟩ (ObjectIDFromHex_Hex _) hfind ?_⟩
      simp [List.find?_append, hfresh, Document.hasKey, Document.key, GetAuthorId, GetContent,
        GetTitle]

/-- Claim C3 at the Blog with empty strings everywhere, inserted into the one-document store. -/
theorem create_then_read_witness :
    (∃ r, (exampleStore.InsertOne quietEnv ⟨NilObjectID, "", "", ""⟩).1 = .ok r) ∧
    quietEnv.findOne = none ∧
    ∃ created c1, CreateBlog quietEnv exampleStore ⟨some ⟨"", "", "", ""⟩⟩ =
        (.ok ⟨some created⟩, c1) ∧ created.Id ≠ "" ∧
      ∃ c2, ReadBlog quietEnv c1 ⟨created.Id⟩ = (.ok ⟨some ⟨created.Id, "", "", ""⟩⟩, c2) :=
  ⟨⟨_, rfl⟩, rfl,
    create_then_read quietEnv quietEnv exampleStore ⟨"", "", "", ""⟩ ⟨_, rfl⟩ rfl⟩

/-- Claim C4.  For every store containing a document with identifier `oid` and every new
authorId, title and content, when the replace succeeds `UpdateBlog` on a request naming `oid`
returns a Blog with that id and the new fields, and a following `ReadBlog` of `oid` (its lookup
reporting no driver failure) returns the new fields with the id unchanged. -/
theorem update_then_read (env env2 : Env) (c : Collection) (oid : ObjectID) (s s2 : String)
    (a t ct : String)
    (hs : ObjectIDFromHex s = some oid) (hs2 : ObjectIDFromHex s2 = some oid)
    (hdoc : ∃ d ∈ c.docs, d.key = some oid)
    (hfind : env.findOne ≠ some .ErrNoDocuments) (hrep : env.replaceOne = none)
    (hfind2 : env2.findOne = none) :
    ∃ c1, UpdateBlog env c ⟨some ⟨s, a, t, ct⟩⟩ = (.ok ⟨some ⟨oid.Hex, a, t, ct⟩⟩, c1) ∧
      ∃ c2, ReadBlog env2 c1 ⟨s2⟩ = (.ok ⟨some ⟨oid.Hex, a, t, ct⟩⟩, c2) :=
  ⟨_, UpdateBlog_ok env c (some ⟨s, a, t, ct⟩) oid hs hdoc hfind hrep, _,
    ReadBlog_found env2 _ s2 oid ⟨oid, a, ct, t⟩ hs2 hfind2
      (find?_replaceFirst oid (.blog ⟨oid, a, ct, t⟩) rfl c.docs hdoc)⟩

/-- Claim C4 on the one-document store, with the fields `client.go` sends. -/
theorem update_then_read_witness :
    ObjectIDFromHex "612799388e0a217939049563" = some exampleID ∧
    (∃ d ∈ exampleStore.docs, d.key = some exampleID) ∧
    quietEnv.findOne ≠ some .ErrNoDocuments ∧ quietEnv.replaceOne = none ∧
    quietEnv.findOne = none ∧
    ∃ c1, UpdateBlog quietEnv exampleStore
        ⟨some ⟨"612799388e0a217939049563", "Changed", "Changed", "Changed"⟩⟩ =
        (.ok ⟨some ⟨exampleID.Hex, "Changed", "Changed", "Changed"⟩⟩, c1) ∧
      ∃ c2, ReadBlog quietEnv c1 ⟨"612799388e0a217939049563"⟩ =
        (.ok ⟨some ⟨exampleID.Hex, "Changed", "Changed", "Changed"⟩⟩, c2) :=
  ⟨by decide, by decide, by decide, rfl, rfl,
    update_then_read quietEnv quietEnv exampleStore exampleID "612799388e0a217939049563"
      "612799388e0a217939049563" "Changed" "Changed" "Changed" (by decide) (by decide)
      (by decide) (by decide) rfl rfl⟩

/-- Claim C5.  For every store (with pairwise distinct identifiers, as MongoDB keeps them)
containing a document with identifier `oid`, when the removal succeeds `DeleteBlog` of `oid`
followed by `ReadBlog` of `oid` on the resulting store fails with code `NotFound`. -/
theorem delete_then_read (env env2 : Env) (c : Collection) (oid : ObjectID) (s s2 : String)
    (hs : ObjectIDFromHex s = some oid) (hs2 : ObjectIDFromHex s2 = some oid)
    (hdoc : ∃ d ∈ c.docs, d.key = some oid)
    (huniq : UniqueKeys c)
    (hfind : env.findOne ≠ some .ErrNoDocuments) (hdel : env.deleteOne = none)
    (hfind2 : env2.findOne = none) :
    ∃ resp c1, DeleteBlog env c ⟨s⟩ = (.ok resp, c1) ∧
      ∃ st c2, ReadBlog env2 c1 ⟨s2⟩ = (.error st, c2) ∧ st.code = Code.NotFound :=
  ⟨_, _, DeleteBlog_ok env c s oid hs hdoc hfind hdel, _, _,
    ReadBlog_absent env2 _ s2 oid hs2 hfind2 (find?_eraseP_hasKey oid c.docs huniq), rfl⟩

/-- Claim C5 on the one-document store. -/
theorem delete_then_read_witness :
    ObjectIDFromHex "612799388e0a217939049563" = some exampleID ∧
    (∃ d ∈ exampleStore.docs, d.key = some exampleID) ∧ UniqueKeys exampleStore ∧
    quietEnv.findOne ≠ some .ErrNoDocuments ∧ quietEnv.deleteOne = none ∧
    quietEnv.findOne = none ∧
    ∃ resp c1, DeleteBlog quietEnv exampleStore ⟨"612799388e0a217939049563"⟩ = (.ok resp, c1) ∧
      ∃ st c2, ReadBlog quietEnv c1 ⟨"612799388e0a217939049563"⟩ = (.error st, c2) ∧
        st.code = Code.NotFound :=
  ⟨by decide, by decide, by decide, by decide, rfl, rfl,
    delete_then_read quietEnv quietEnv exampleStore exampleID "612799388e0a217939049563"
      "612799388e0a217939049563" (by decide) (by decide) (by decide) (by decide) (by decide)
      rfl rfl⟩

/-- Claim C6.  For every store whose N documents all decode, when `Find` and its cursor raise
no error, `ListBlog` sends exactly N messages, the i-th carrying the id (as hex), authorId,
title and content of the i-th stored document, so that no document is sent twice and none is
omitted, and then returns success. -/
theorem list_sends_each_document (env : Env) (c : Collection) (req : ListBlogRequest)
    (stream : Stream) (items : List BlogItem)
    (hdocs : c.docs = items.map Document.blog)
    (hfind : env.find = none) (hcur : env.cursor = none) :
    ∃ sent, ListBlog env c req stream = (.ok (), stream ++ sent, c.issue .Find) ∧
      sent = items.map (fun it => ⟨some ⟨it.ID.Hex, it.AuthorID, it.Title, it.Content⟩⟩) ∧
      sent.length = c.docs.length := by
  refine ⟨_, ?_, rfl, by simp [hdocs]⟩
  simp [ListBlog, Collection.Find, hfind, hcur, hdocs, listLoop_blogs]

/-- Claim C6 on the one-document store and an empty stream. -/
theorem list_sends_each_document_witness :
    exampleStore.docs = [(⟨exampleID, "a", "c", "t"⟩ : BlogItem)].map Document.blog ∧
    quietEnv.find = none ∧ quietEnv.cursor = none ∧
    ∃ sent, ListBlog quietEnv exampleStore ⟨⟩ [] = (.ok (), [] ++ sent, exampleStore.issue .Find) ∧
      sent = [(⟨exampleID, "a", "c", "t"⟩ : BlogItem)].map
        (fun it => ⟨some ⟨it.ID.Hex, it.AuthorID, it.Title, it.Content⟩⟩) ∧
      sent.length = exampleStore.docs.length :=
  ⟨rfl, rfl, rfl,
    list_sends_each_document quietEnv exampleStore ⟨⟩ [] [⟨exampleID, "a", "c", "t"⟩] rfl rfl rfl⟩

/-- Claim C7, evaluated where the code departs from it.  `FindOne` fails with an error other
than `ErrNoDocuments`, and `ReadBlog` answers with a successful response that carries the
zero-valued `BlogItem` instead of returning an error. -/
theorem read_succeeds_when_find_fails :
    ReadBlog failingFindEnv exampleStore ⟨"612799388e0a217939049563"⟩ =
      (.ok ⟨some ⟨"000000000000000000000000", "", "", ""⟩⟩,
        ⟨exampleStore.docs, [.FindOne exampleID]⟩) := by
  decide

/-- Claim C8.  For every request and every fallback handler `next`, the handler returned by
`grpcMultiplexer.Handler` passes the writer and the request unchanged to the wrapped gRPC-web
server when `IsGrpcWebRequest` holds of the request and to `next` otherwise; and over any
sequence of requests, with handlers that record their invocations, each request causes exactly
one invocation, chosen by that request alone. -/
theorem multiplexer_routes_each_request {W Req σ : Type} (m : grpcMultiplexer W Req σ)
    (next : HTTPHandler W Req σ) :
    (∀ (w : W) (r : Req) (st : σ), (m.Handler next).ServeHTTP w r st =
      if m.WrappedGrpcServer.IsGrpcWebRequest r then m.WrappedGrpcServer.ServeHTTP w r st
      else next.ServeHTTP w r st) ∧
    (∀ (isGrpcWeb : Req → Bool) (reqs : List (W × Req)),
      serveAll ((grpcMultiplexer.mk (recordingServer isGrpcWeb)).Handler recordingNext) reqs [] =
        reqs.map
          (fun p => ⟨if isGrpcWeb p.2 then Target.grpcWeb else Target.next, p.1, p.2⟩)) :=
  ⟨fun _ _ _ => rfl, fun isGrpcWeb reqs => by simpa using serveAll_recording isGrpcWeb reqs []⟩

/-- Claim C9, as stated, fails.  A request that writes the stored identifier with upper-case
digits is well formed and the removal succeeds, but the response carries the lower-case hex
form, which is not the string the caller supplied. -/
theorem delete_response_differs_from_request :
    DeleteBlog quietEnv exampleStore ⟨"612799388E0A217939049563"⟩ =
      (.ok ⟨"612799388e0a217939049563"⟩,
        ⟨[], [.FindOne exampleID, .DeleteOne exampleID]⟩) ∧
    "612799388e0a217939049563" ≠ "612799388E0A217939049563" := by
  decide

/-- Claim C9, amended.  For every store containing a document with identifier `oid` and every
well-formed request string naming it, when the removal succeeds the response's blog id is the
hex encoding of the parsed request id; that is the supplied string in lower case, and it is the
supplied string itself when that has no upper-case character. -/
theorem delete_returns_hex_of_parsed_id (env : Env) (c : Collection) (s : String)
    (oid : ObjectID) (hs : ObjectIDFromHex s = some oid)
    (hdoc : ∃ d ∈ c.docs, d.key = some oid)
    (hfind : env.findOne ≠ some .ErrNoDocuments) (hdel : env.deleteOne = none) :
    ∃ c1, DeleteBlog env c ⟨s⟩ = (.ok ⟨oid.Hex⟩, c1) ∧ oid.Hex = s.toLower ∧
      ((∀ ch ∈ s.data, ch.isUpper = false) → oid.Hex = s) :=
  ⟨_, DeleteBlog_ok env c s oid hs hdoc hfind hdel, Hex_of_ObjectIDFromHex s oid hs,
    fun h => (Hex_of_ObjectIDFromHex s oid hs).trans (toLower_of_no_upper s h)⟩

/-- Claim C9, amended, at the upper-case spelling of the stored identifier. -/
theorem delete_returns_hex_of_parsed_id_witness :
    ObjectIDFromHex "612799388E0A217939049563" = some exampleID ∧
    (∃ d ∈ exampleStore.docs, d.key = some exampleID) ∧
    quietEnv.findOne ≠ some .ErrNoDocuments ∧ quietEnv.deleteOne = none ∧
    ∃ c1, DeleteBlog quietEnv exampleStore ⟨"612799388E0A217939049563"⟩ =
        (.ok ⟨exampleID.Hex⟩, c1) ∧
      exampleID.Hex = "612799388E0A217939049563".toLower ∧
      ((∀ ch ∈ "612799388E0A217939049563".data, ch.isUpper = false) →
        exampleID.Hex = "612799388E0A217939049563") :=
  ⟨by decide, by decide, by decide, rfl,
    delete_returns_hex_of_parsed_id quietEnv exampleStore "612799388E0A217939049563" exampleID
      (by decide) (by decide) (by decide) rfl⟩

/-- Claim C10.  After the interrupt is received the tail of `main` makes exactly four calls, in
this order: stop the RPC server, close the RPC listener, disconnect the database client, close
the HTTPS server; each is made whatever error the calls before it returned. -/
theorem shutdown_runs_four_steps_in_order (outcome : Step → Option String) :
    (mainShutdown (tracing outcome) []).filterMap Event.step? =
      [Step.Stop, Step.lisClose, Step.Disconnect, Step.srvClose] := by
  simp [mainShutdown, tracing, Event.step?]

end BlogService
